import Mathlib

set_option maxRecDepth 100000
set_option autoImplicit false

/-!
Shallow embedding of the SMC fuzzing kernel module
(src/kernel_modules/smc_fuzzer.c) and verification of its specification.

Machine integers are modelled as Nat with explicit reduction modulo 2^32
and 2^64 where the C code relies on fixed-width behaviour.  The stream of
values produced by get_random_u32 and get_random_u64 is modelled as a
function g : Nat -> Nat together with an index that advances by one per
draw.  The secure monitor (the arm_smccc_smc primitive, an external
collaborator) is modelled as an oracle o : Nat -> Nat giving the primary
result word (res.a0) of the j-th SMC call issued by the module.
-/

/-- Truncation to an unsigned 32-bit value (u32). -/
def U32 (x : Nat) : Nat := x % 2 ^ 32

/-- Truncation to an unsigned 64-bit value (u64). -/
def U64 (x : Nat) : Nat := x % 2 ^ 64

/-- The value of a u64 bit pattern reinterpreted as a signed s64,
mirroring the cast (s64)res->a0 at smc_fuzzer.c line 82. -/
def toSigned64 (x : Nat) : Int := if x < 2 ^ 63 then (x : Int) else (x : Int) - 2 ^ 64

/-- struct fuzz_stats, smc_fuzzer.c lines 41-50. -/
structure FuzzStats where
  total_iterations : Nat
  crashes : Nat
  hangs : Nat
  interesting_cases : Nat
  valid_responses : Nat
  error_responses : Nat
  last_smc_id : Nat
  last_result : Nat
deriving DecidableEq

/-- static struct fuzz_stats stats = {0}; (line 52), and the state
produced by memset(&stats, 0, sizeof(stats)) in the reset command. -/
def zeroStats : FuzzStats := ⟨0, 0, 0, 0, 0, 0, 0, 0⟩

/-- known_smc_ids, smc_fuzzer.c lines 56-63: the OP-TEE seed corpus. -/
def known_smc_ids : List Nat :=
  [0xb2000003, 0xb2000004, 0xb2000007, 0xb2000009, 0xb200000a, 0xb200000b]

/-- One SMC invocation as issued through arm_smccc_smc: the function
identifier and the six word-sized arguments. -/
structure SmcCall where
  func_id : Nat
  args : List Nat
deriving DecidableEq

/-- Result of execute_smc: updated statistics, the C return value and a
record of the SMC invocation that was issued. -/
structure ExecOut where
  stats : FuzzStats
  ret : Int
  call : SmcCall
deriving DecidableEq

/-- execute_smc, smc_fuzzer.c lines 69-89.  The secure world has already
produced the primary result word a0 (res->a0, a u64); the function
records the identifier/result pair unconditionally and then classifies
the outcome: 0 -> valid, negative as signed -> error, otherwise
interesting. -/
def execute_smc (func_id : Nat) (args : List Nat) (a0 : Nat) (s : FuzzStats) : ExecOut :=
  let s1 := { s with last_smc_id := func_id, last_result := a0 }
  if a0 = 0 then
    ⟨{ s1 with valid_responses := s1.valid_responses + 1 }, 0, ⟨func_id, args⟩⟩
  else if toSigned64 a0 < 0 then
    ⟨{ s1 with error_responses := s1.error_responses + 1 }, -1, ⟨func_id, args⟩⟩
  else
    ⟨{ s1 with interesting_cases := s1.interesting_cases + 1 }, 0, ⟨func_id, args⟩⟩

/-- A value drawn from one of the generators together with the random
stream index after the draw. -/
structure DrawOut where
  val : Nat
  k : Nat
deriving DecidableEq

/-- generate_random_smc_id, smc_fuzzer.c lines 94-107.  With use_known
set, a first u32 draw decides by parity whether to pick a corpus entry
(a second draw selects the index) or to synthesize an identifier in the
OP-TEE range 0xb2000000..0xb2ffffff by masking a fresh u32 draw to its
low 24 bits and OR-ing in the prefix.  Without use_known the parity draw
is skipped (C short-circuit of &&). -/
def generate_random_smc_id (use_known : Bool) (g : Nat → Nat) (k : Nat) : DrawOut :=
  if use_known then
    if U32 (g k) % 2 ≠ 0 then
      ⟨known_smc_ids.getD (U32 (g (k + 1)) % known_smc_ids.length) 0, k + 2⟩
    else
      ⟨Nat.lor 0xb2000000 (Nat.land (U32 (g (k + 1))) 0x00ffffff), k + 2⟩
  else
    ⟨Nat.lor 0xb2000000 (Nat.land (U32 (g k)) 0x00ffffff), k + 1⟩

/-- generate_random_param, smc_fuzzer.c lines 112-128: a u32 draw picks
one of ten patterns; patterns 4, 5, 7 and 9 consume one further draw. -/
def generate_random_param (g : Nat → Nat) (k : Nat) : DrawOut :=
  let pattern := U32 (g k) % 10
  if pattern = 0 then ⟨0, k + 1⟩
  else if pattern = 1 then ⟨0xFFFFFFFFFFFFFFFF, k + 1⟩
  else if pattern = 2 then ⟨0x8000000000000000, k + 1⟩
  else if pattern = 3 then ⟨0x7FFFFFFFFFFFFFFF, k + 1⟩
  else if pattern = 4 then ⟨U32 (g (k + 1)), k + 2⟩
  else if pattern = 5 then ⟨U64 (g (k + 1)), k + 2⟩
  else if pattern = 6 then ⟨0x1000, k + 1⟩
  else if pattern = 7 then ⟨0x1000 + Nat.land (U32 (g (k + 1))) 0xFFF, k + 2⟩
  else if pattern = 8 then ⟨0xFFFFFFFFFFFFFFFF, k + 1⟩
  else ⟨Nat.land (U64 (g (k + 1))) 0xFFFFFFFF, k + 2⟩

/-- A generated argument vector together with the stream index after the
last draw. -/
structure ParamsOut where
  params : List Nat
  k : Nat
deriving DecidableEq

/-- The params-filling loop of fuzz_iteration (smc_fuzzer.c lines
146-147): n successive independent calls to generate_random_param. -/
def gen_params (g : Nat → Nat) : Nat → Nat → ParamsOut
  | 0, k => ⟨[], k⟩
  | n + 1, k =>
    let p := generate_random_param g k
    let rest := gen_params g n p.k
    ⟨p.val :: rest.params, rest.k⟩

/-- The chain of random stream indices visited by successive calls to
generate_random_param starting at index k. -/
def param_chain (g : Nat → Nat) (k : Nat) : Nat → Nat
  | 0 => k
  | i + 1 => (generate_random_param g (param_chain g k i)).k

/-- Result of one fuzzing iteration. -/
structure IterOut where
  stats : FuzzStats
  rk : Nat
  ck : Nat
  call : SmcCall
  ret : Int
deriving DecidableEq

/-- fuzz_iteration, smc_fuzzer.c lines 133-160: count the iteration,
generate an identifier and six parameters, issue the SMC and classify
the result.  rk is the random stream index, ck the SMC call counter
feeding the oracle o. -/
def fuzz_iteration (g o : Nat → Nat) (s : FuzzStats) (rk ck : Nat) : IterOut :=
  let s1 := { s with total_iterations := s.total_iterations + 1 }
  let fid := generate_random_smc_id true g rk
  let ps := gen_params g 6 fid.k
  let ex := execute_smc fid.val ps.params (U64 (o ck)) s1
  ⟨ex.stats, ps.k, ck + 1, ex.call, ex.ret⟩

/-- Result of a fuzzing campaign: final statistics, stream and call
counters, the issued SMC calls, the loop indices at which cond_resched
was reached, and the final value of the loop variable i. -/
structure RunOut where
  stats : FuzzStats
  rk : Nat
  ck : Nat
  calls : List SmcCall
  yields : List Nat
  fin : Nat
deriving DecidableEq

/-- The loop body of run_fuzzing_campaign (smc_fuzzer.c lines 171-182),
recursing on the remaining iteration budget with current loop index i.
en models the value the shared fuzzing_enabled flag has when it is read
at the top of iteration i; cond_resched is reached after the iteration
whenever i % 100 == 0. -/
def run_loop (en : Nat → Bool) (g o : Nat → Nat) : Nat → Nat → FuzzStats → Nat → Nat → RunOut
  | 0, i, s, rk, ck => ⟨s, rk, ck, [], [], i⟩
  | fuel + 1, i, s, rk, ck =>
    if en i = false then ⟨s, rk, ck, [], [], i⟩
    else
      let it := fuzz_iteration g o s rk ck
      let ys0 := if i % 100 = 0 then [i] else []
      let rest := run_loop en g o fuel (i + 1) it.stats it.rk it.ck
      ⟨rest.stats, rest.rk, rest.ck, it.call :: rest.calls, ys0 ++ rest.yields, rest.fin⟩

/-- run_fuzzing_campaign, smc_fuzzer.c lines 165-186. -/
def run_fuzzing_campaign (en : Nat → Bool) (g o : Nat → Nat) (iterations : Nat)
    (s : FuzzStats) (rk ck : Nat) : RunOut :=
  run_loop en g o iterations 0 s rk ck

/-- Result of the known-SMC smoke test. -/
structure TestOut where
  stats : FuzzStats
  ck : Nat
  calls : List SmcCall
deriving DecidableEq

/-- The loop of test_known_smcs over the remaining corpus entries
(smc_fuzzer.c lines 198-203): each entry is invoked with all six
arguments zero. -/
def test_loop (o : Nat → Nat) : List Nat → FuzzStats → Nat → TestOut
  | [], s, ck => ⟨s, ck, []⟩
  | id :: rest, s, ck =>
    let ex := execute_smc id [0, 0, 0, 0, 0, 0] (U64 (o ck)) s
    let t := test_loop o rest ex.stats (ck + 1)
    ⟨t.stats, t.ck, ex.call :: t.calls⟩

/-- test_known_smcs, smc_fuzzer.c lines 191-206. -/
def test_known_smcs (o : Nat → Nat) (s : FuzzStats) (ck : Nat) : TestOut :=
  test_loop o known_smc_ids s ck

/-- The module state: the statistics singleton, the fuzzing_enabled
flag (line 53), the random stream index and the SMC call counter. -/
structure MState where
  stats : FuzzStats
  enabled : Bool
  rk : Nat
  ck : Nat
deriving DecidableEq

/-- The state of the freshly loaded module before any SMC activity:
stats = {0} and fuzzing_enabled = true. -/
def mstate0 : MState := ⟨zeroStats, true, 0, 0⟩

/-- The five operator-triggered operations of the campaign controller. -/
inductive Op where
  | fuzz (n : Nat)
  | test
  | enable
  | disable
  | reset
deriving DecidableEq

/-- The effect of one operation on the module state, following the
corresponding branch of proc_write (smc_fuzzer.c lines 273-294).  A
campaign started on this thread reads a fuzzing_enabled flag that no
concurrent writer changes, hence the constant schedule. -/
def step (g o : Nat → Nat) (st : MState) : Op → MState
  | .fuzz n =>
    let r := run_fuzzing_campaign (fun _ => st.enabled) g o n st.stats st.rk st.ck
    { st with stats := r.stats, rk := r.rk, ck := r.ck }
  | .test =>
    let t := test_known_smcs o st.stats st.ck
    { st with stats := t.stats, ck := t.ck }
  | .enable => { st with enabled := true }
  | .disable => { st with enabled := false }
  | .reset => { st with stats := zeroStats }

/-- Execute a sequence of operator commands. -/
def exec_ops (g o : Nat → Nat) : List Op → MState → MState
  | [], st => st
  | op :: ops, st => exec_ops g o ops (step g o st op)

/-- The fields rendered by proc_read (smc_fuzzer.c lines 220-246), in
the order they are printed. -/
structure StatusView where
  enabled : Bool
  total : Nat
  crashes : Nat
  hangs : Nat
  interesting : Nat
  valid : Nat
  errors : Nat
  last_id : Nat
  last_res : Nat
deriving DecidableEq

/-- proc_read, smc_fuzzer.c lines 211-253, as the values it renders. -/
def proc_read_view (st : MState) : StatusView :=
  ⟨st.enabled, st.stats.total_iterations, st.stats.crashes, st.stats.hangs,
   st.stats.interesting_cases, st.stats.valid_responses, st.stats.error_responses,
   st.stats.last_smc_id, st.stats.last_result⟩

/-- Result of module initialization. -/
structure InitOut where
  ret : Int
  state : MState
  calls : List SmcCall
deriving DecidableEq

/-- smc_fuzzer_init, smc_fuzzer.c lines 307-327: if proc_create fails
the module load fails with -ENOMEM and no SMC is issued; otherwise
test_known_smcs runs once on the fresh state. -/
def smc_fuzzer_init (o : Nat → Nat) (proc_create_ok : Bool) : InitOut :=
  if proc_create_ok then
    let t := test_known_smcs o mstate0.stats mstate0.ck
    ⟨0, { mstate0 with stats := t.stats, ck := t.ck }, t.calls⟩
  else
    ⟨-12, mstate0, []⟩

/-- The module state right after a successful load. -/
def loaded_state (o : Nat → Nat) : MState := (smc_fuzzer_init o true).state

/-- Whitespace in the sense of the C scanf conversion (isspace). -/
def isWs (c : Char) : Bool :=
  c = ' ' ∨ c = '\t' ∨ c = '\n' ∨ c = '\r' ∨ c = Char.ofNat 11 ∨ c = Char.ofNat 12

/-- Drop leading scanf whitespace. -/
def skipWs : List Char → List Char
  | [] => []
  | c :: cs => if isWs c then skipWs cs else c :: cs

/-- Read a maximal run of decimal digits; none when the run is empty. -/
def readDigits : List Char → Option Nat → Option Nat
  | [], acc => acc
  | c :: cs, acc =>
    if c.isDigit then readDigits cs (some ((acc.getD 0) * 10 + (c.toNat - 48)))
    else acc

/-- sscanf(buf, "fuzz %u", &iterations) == 1 (smc_fuzzer.c line 273),
with the semantics of the kernel vsscanf (lib/vsprintf.c): the literal
prefix fuzz, then scanf whitespace, then at least one decimal digit.
The kernel digit pre-check admits a sign character only for the d and i
conversions, so a sign after fuzz makes the conversion fail; the
converted value is reduced to u32 (the accumulated value wraps as
unsigned before the narrowing assignment). -/
def scanf_fuzz (cs : List Char) : Option Nat :=
  if ("fuzz".data).isPrefixOf cs then
    (readDigits (skipWs (cs.drop 4)) none).map U32
  else none

/-- The command text proc_write actually parses: the written bytes are
cut at the first NUL, matching buf[count] = 0 and C string handling. -/
def effective_cmd (cs : List Char) : List Char :=
  cs.takeWhile (fun c => c ≠ Char.ofNat 0)

/-- proc_write, smc_fuzzer.c lines 258-297: a write of more than 127
bytes is rejected with -EINVAL; otherwise the first matching branch of
the parser runs (sscanf fuzz, then the strncmp prefix tests for test,
enable, disable, reset, in that order) and the byte count is returned;
an unmatched command is rejected with -EINVAL and changes nothing. -/
def proc_write (cmdRaw : List Char) (g o : Nat → Nat) (st : MState) : MState × Int :=
  if 128 ≤ cmdRaw.length then (st, -22)
  else
    let cmd := effective_cmd cmdRaw
    match scanf_fuzz cmd with
    | some n => (step g o st (Op.fuzz n), Int.ofNat cmdRaw.length)
    | none =>
      if ("test".data).isPrefixOf cmd then (step g o st Op.test, Int.ofNat cmdRaw.length)
      else if ("enable".data).isPrefixOf cmd then (step g o st Op.enable, Int.ofNat cmdRaw.length)
      else if ("disable".data).isPrefixOf cmd then (step g o st Op.disable, Int.ofNat cmdRaw.length)
      else if ("reset".data).isPrefixOf cmd then (step g o st Op.reset, Int.ofNat cmdRaw.length)
      else (st, -22)

/-- Written from the specification, for comparison with the parser
above: the defined operator verbs are exactly the words test, enable,
disable and reset, and fuzz followed by a decimal iteration count. -/
def spec_defined_verb (cs : List Char) : Bool :=
  cs = "test".data || cs = "enable".data || cs = "disable".data || cs = "reset".data ||
    (("fuzz ".data).isPrefixOf cs && decide (cs.drop 5 ≠ []) && (cs.drop 5).all (fun c => c.isDigit))

/-- The internal-consistency invariant of CampaignStats claimed by the
specification: the iteration total equals the sum of the three
per-outcome counters filled in by the classifier. -/
def stats_inv (s : FuzzStats) : Prop :=
  s.total_iterations = s.valid_responses + s.error_responses + s.interesting_cases

/-- The shape each of the ten parameter patterns guarantees for the
generated value, indexed by the selector drawn at the head of
generate_random_param. -/
def pattern_spec : Nat → Nat → Prop
  | 0, v => v = 0
  | 1, v => v = 0xFFFFFFFFFFFFFFFF
  | 2, v => v = 0x8000000000000000
  | 3, v => v = 0x7FFFFFFFFFFFFFFF
  | 4, v => v < 2 ^ 32
  | 5, v => v < 2 ^ 64
  | 6, v => v = 0x1000
  | 7, v => 0x1000 ≤ v ∧ v ≤ 0x1FFF
  | 8, v => v = 0xFFFFFFFFFFFFFFFF
  | _, v => v < 2 ^ 32

theorem execute_smc_total (fid : Nat) (args : List Nat) (a0 : Nat) (s : FuzzStats) :
    (execute_smc fid args a0 s).stats.total_iterations = s.total_iterations := by
  simp only [execute_smc]
  split_ifs <;> rfl

theorem execute_smc_crashes (fid : Nat) (args : List Nat) (a0 : Nat) (s : FuzzStats) :
    (execute_smc fid args a0 s).stats.crashes = s.crashes := by
  simp only [execute_smc]
  split_ifs <;> rfl

theorem execute_smc_hangs (fid : Nat) (args : List Nat) (a0 : Nat) (s : FuzzStats) :
    (execute_smc fid args a0 s).stats.hangs = s.hangs := by
  simp only [execute_smc]
  split_ifs <;> rfl

theorem execute_smc_outcome_sum (fid : Nat) (args : List Nat) (a0 : Nat) (s : FuzzStats) :
    (execute_smc fid args a0 s).stats.valid_responses
      + (execute_smc fid args a0 s).stats.error_responses
      + (execute_smc fid args a0 s).stats.interesting_cases
      = s.valid_responses + s.error_responses + s.interesting_cases + 1 := by
  simp only [execute_smc]
  split_ifs <;> simp <;> omega

theorem fuzz_iteration_total (g o : Nat → Nat) (s : FuzzStats) (rk ck : Nat) :
    (fuzz_iteration g o s rk ck).stats.total_iterations = s.total_iterations + 1 := by
  simp only [fuzz_iteration, execute_smc_total]

theorem fuzz_iteration_crashes (g o : Nat → Nat) (s : FuzzStats) (rk ck : Nat) :
    (fuzz_iteration g o s rk ck).stats.crashes = s.crashes := by
  simp only [fuzz_iteration, execute_smc_crashes]

theorem fuzz_iteration_hangs (g o : Nat → Nat) (s : FuzzStats) (rk ck : Nat) :
    (fuzz_iteration g o s rk ck).stats.hangs = s.hangs := by
  simp only [fuzz_iteration, execute_smc_hangs]

theorem fuzz_iteration_outcome_sum (g o : Nat → Nat) (s : FuzzStats) (rk ck : Nat) :
    (fuzz_iteration g o s rk ck).stats.valid_responses
      + (fuzz_iteration g o s rk ck).stats.error_responses
      + (fuzz_iteration g o s rk ck).stats.interesting_cases
      = s.valid_responses + s.error_responses + s.interesting_cases + 1 := by
  simp only [fuzz_iteration, execute_smc_outcome_sum]

theorem run_loop_succ_stop (en : Nat → Bool) (g o : Nat → Nat) (fuel i : Nat)
    (s : FuzzStats) (rk ck : Nat) (h : en i = false) :
    run_loop en g o (fuel + 1) i s rk ck = ⟨s, rk, ck, [], [], i⟩ := by
  simp [run_loop, h]

theorem run_loop_succ_go (en : Nat → Bool) (g o : Nat → Nat) (fuel i : Nat)
    (s : FuzzStats) (rk ck : Nat) (h : en i = true) :
    run_loop en g o (fuel + 1) i s rk ck =
      ⟨(run_loop en g o fuel (i + 1) (fuzz_iteration g o s rk ck).stats
          (fuzz_iteration g o s rk ck).rk (fuzz_iteration g o s rk ck).ck).stats,
       (run_loop en g o fuel (i + 1) (fuzz_iteration g o s rk ck).stats
          (fuzz_iteration g o s rk ck).rk (fuzz_iteration g o s rk ck).ck).rk,
       (run_loop en g o fuel (i + 1) (fuzz_iteration g o s rk ck).stats
          (fuzz_iteration g o s rk ck).rk (fuzz_iteration g o s rk ck).ck).ck,
       (fuzz_iteration g o s rk ck).call ::
         (run_loop en g o fuel (i + 1) (fuzz_iteration g o s rk ck).stats
            (fuzz_iteration g o s rk ck).rk (fuzz_iteration g o s rk ck).ck).calls,
       (if i % 100 = 0 then [i] else []) ++
         (run_loop en g o fuel (i + 1) (fuzz_iteration g o s rk ck).stats
            (fuzz_iteration g o s rk ck).rk (fuzz_iteration g o s rk ck).ck).yields,
       (run_loop en g o fuel (i + 1) (fuzz_iteration g o s rk ck).stats
          (fuzz_iteration g o s rk ck).rk (fuzz_iteration g o s rk ck).ck).fin⟩ := by
  simp [run_loop, h]

theorem run_loop_fin_ge (en : Nat → Bool) (g o : Nat → Nat) :
    ∀ (fuel i : Nat) (s : FuzzStats) (rk ck : Nat),
      i ≤ (run_loop en g o fuel i s rk ck).fin := by
  intro fuel
  induction fuel with
  | zero => intro i s rk ck; exact le_refl i
  | succ fuel ih =>
    intro i s rk ck
    cases h : en i with
    | false => rw [run_loop_succ_stop en g o fuel i s rk ck h]
    | true =>
      rw [run_loop_succ_go en g o fuel i s rk ck h]
      exact le_trans (Nat.le_succ i) (ih (i + 1) _ _ _)

theorem run_loop_fin_le (en : Nat → Bool) (g o : Nat → Nat) :
    ∀ (fuel i : Nat) (s : FuzzStats) (rk ck : Nat),
      (run_loop en g o fuel i s rk ck).fin ≤ i + fuel := by
  intro fuel
  induction fuel with
  | zero => intro i s rk ck; exact Nat.le_add_right i 0
  | succ fuel ih =>
    intro i s rk ck
    cases h : en i with
    | false =>
      rw [run_loop_succ_stop en g o fuel i s rk ck h]
      exact Nat.le_add_right i (fuel + 1)
    | true =>
      rw [run_loop_succ_go en g o fuel i s rk ck h]
      dsimp only
      have h1 := ih (i + 1) (fuzz_iteration g o s rk ck).stats
        (fuzz_iteration g o s rk ck).rk (fuzz_iteration g o s rk ck).ck
      omega

theorem run_loop_total (en : Nat → Bool) (g o : Nat → Nat) :
    ∀ (fuel i : Nat) (s : FuzzStats) (rk ck : Nat),
      (run_loop en g o fuel i s rk ck).stats.total_iterations + i
        = s.total_iterations + (run_loop en g o fuel i s rk ck).fin := by
  intro fuel
  induction fuel with
  | zero => intro i s rk ck; rfl
  | succ fuel ih =>
    intro i s rk ck
    cases h : en i with
    | false => rw [run_loop_succ_stop en g o fuel i s rk ck h]
    | true =>
      rw [run_loop_succ_go en g o fuel i s rk ck h]
      dsimp only
      have h1 := ih (i + 1) (fuzz_iteration g o s rk ck).stats
        (fuzz_iteration g o s rk ck).rk (fuzz_iteration g o s rk ck).ck
      have h2 := fuzz_iteration_total g o s rk ck
      omega

theorem run_loop_outcome_sum (en : Nat → Bool) (g o : Nat → Nat) :
    ∀ (fuel i : Nat) (s : FuzzStats) (rk ck : Nat),
      (run_loop en g o fuel i s rk ck).stats.valid_responses
        + (run_loop en g o fuel i s rk ck).stats.error_responses
        + (run_loop en g o fuel i s rk ck).stats.interesting_cases + i
        = s.valid_responses + s.error_responses + s.interesting_cases
          + (run_loop en g o fuel i s rk ck).fin := by
  intro fuel
  induction fuel with
  | zero => intro i s rk ck; rfl
  | succ fuel ih =>
    intro i s rk ck
    cases h : en i with
    | false => rw [run_loop_succ_stop en g o fuel i s rk ck h]
    | true =>
      rw [run_loop_succ_go en g o fuel i s rk ck h]
      dsimp only
      have h1 := ih (i + 1) (fuzz_iteration g o s rk ck).stats
        (fuzz_iteration g o s rk ck).rk (fuzz_iteration g o s rk ck).ck
      have h2 := fuzz_iteration_outcome_sum g o s rk ck
      omega

theorem run_loop_crashes (en : Nat → Bool) (g o : Nat → Nat) :
    ∀ (fuel i : Nat) (s : FuzzStats) (rk ck : Nat),
      (run_loop en g o fuel i s rk ck).stats.crashes = s.crashes := by
  intro fuel
  induction fuel with
  | zero => intro i s rk ck; rfl
  | succ fuel ih =>
    intro i s rk ck
    cases h : en i with
    | false => rw [run_loop_succ_stop en g o fuel i s rk ck h]
    | true =>
      rw [run_loop_succ_go en g o fuel i s rk ck h]
      dsimp only
      have h1 := ih (i + 1) (fuzz_iteration g o s rk ck).stats
        (fuzz_iteration g o s rk ck).rk (fuzz_iteration g o s rk ck).ck
      have h2 := fuzz_iteration_crashes g o s rk ck
      omega

theorem run_loop_hangs (en : Nat → Bool) (g o : Nat → Nat) :
    ∀ (fuel i : Nat) (s : FuzzStats) (rk ck : Nat),
      (run_loop en g o fuel i s rk ck).stats.hangs = s.hangs := by
  intro fuel
  induction fuel with
  | zero => intro i s rk ck; rfl
  | succ fuel ih =>
    intro i s rk ck
    cases h : en i with
    | false => rw [run_loop_succ_stop en g o fuel i s rk ck h]
    | true =>
      rw [run_loop_succ_go en g o fuel i s rk ck h]
      dsimp only
      have h1 := ih (i + 1) (fuzz_iteration g o s rk ck).stats
        (fuzz_iteration g o s rk ck).rk (fuzz_iteration g o s rk ck).ck
      have h2 := fuzz_iteration_hangs g o s rk ck
      omega

theorem run_loop_always (en : Nat → Bool) (g o : Nat → Nat) :
    ∀ (fuel i : Nat) (s : FuzzStats) (rk ck : Nat),
      (∀ j, j < fuel → en (i + j) = true) →
      (run_loop en g o fuel i s rk ck).fin = i + fuel := by
  intro fuel
  induction fuel with
  | zero => intro i s rk ck _; rfl
  | succ fuel ih =>
    intro i s rk ck hen
    have h : en i = true := by
      have := hen 0 (Nat.succ_pos fuel)
      simpa using this
    rw [run_loop_succ_go en g o fuel i s rk ck h]
    dsimp only
    have h1 := ih (i + 1) (fuzz_iteration g o s rk ck).stats
      (fuzz_iteration g o s rk ck).rk (fuzz_iteration g o s rk ck).ck
      (by
        intro j hj
        have := hen (j + 1) (by omega)
        simpa [Nat.add_assoc, Nat.add_comm 1 j] using this)
    omega

theorem run_loop_stop (en : Nat → Bool) (g o : Nat → Nat) :
    ∀ (m fuel i : Nat) (s : FuzzStats) (rk ck : Nat),
      (∀ j, j < m → en (i + j) = true) → en (i + m) = false → m ≤ fuel →
      (run_loop en g o fuel i s rk ck).fin = i + m := by
  intro m
  induction m with
  | zero =>
    intro fuel i s rk ck _ hstop _
    cases fuel with
    | zero => rfl
    | succ fuel =>
      rw [run_loop_succ_stop en g o fuel i s rk ck (by simpa using hstop)]
      simp
  | succ m ih =>
    intro fuel i s rk ck hen hstop hle
    cases fuel with
    | zero => omega
    | succ fuel =>
      have h : en i = true := by
        have := hen 0 (Nat.succ_pos m)
        simpa using this
      rw [run_loop_succ_go en g o fuel i s rk ck h]
      dsimp only
      have h1 := ih fuel (i + 1) (fuzz_iteration g o s rk ck).stats
        (fuzz_iteration g o s rk ck).rk (fuzz_iteration g o s rk ck).ck
        (by
          intro j hj
          have := hen (j + 1) (by omega)
          simpa [Nat.add_assoc, Nat.add_comm 1 j] using this)
        (by
          have := hstop
          simpa [Nat.add_assoc, Nat.add_comm 1 m] using this)
        (by omega)
      omega

theorem run_loop_yields (en : Nat → Bool) (g o : Nat → Nat) :
    ∀ (fuel i : Nat) (s : FuzzStats) (rk ck : Nat),
      (run_loop en g o fuel i s rk ck).yields
        = (List.range' i ((run_loop en g o fuel i s rk ck).fin - i)).filter
            (fun j => decide (j % 100 = 0)) := by
  intro fuel
  induction fuel with
  | zero => intro i s rk ck; simp [run_loop]
  | succ fuel ih =>
    intro i s rk ck
    cases h : en i with
    | false => rw [run_loop_succ_stop en g o fuel i s rk ck h]; simp
    | true =>
      rw [run_loop_succ_go en g o fuel i s rk ck h]
      dsimp only
      have h1 := ih (i + 1) (fuzz_iteration g o s rk ck).stats
        (fuzz_iteration g o s rk ck).rk (fuzz_iteration g o s rk ck).ck
      have h2 := run_loop_fin_ge en g o fuel (i + 1) (fuzz_iteration g o s rk ck).stats
        (fuzz_iteration g o s rk ck).rk (fuzz_iteration g o s rk ck).ck
      have h3 : (run_loop en g o fuel (i + 1) (fuzz_iteration g o s rk ck).stats
          (fuzz_iteration g o s rk ck).rk (fuzz_iteration g o s rk ck).ck).fin - i
          = ((run_loop en g o fuel (i + 1) (fuzz_iteration g o s rk ck).stats
              (fuzz_iteration g o s rk ck).rk (fuzz_iteration g o s rk ck).ck).fin - (i + 1)) + 1 := by
        omega
      rw [h3, List.range'_succ, List.filter_cons, h1]
      by_cases hy : i % 100 = 0 <;> simp [hy]

theorem execute_smc_call (fid : Nat) (args : List Nat) (a0 : Nat) (s : FuzzStats) :
    (execute_smc fid args a0 s).call = ⟨fid, args⟩ := by
  simp only [execute_smc]
  split_ifs <;> rfl

theorem test_loop_total (o : Nat → Nat) :
    ∀ (l : List Nat) (s : FuzzStats) (ck : Nat),
      (test_loop o l s ck).stats.total_iterations = s.total_iterations := by
  intro l
  induction l with
  | nil => intro s ck; rfl
  | cons id rest ih =>
    intro s ck
    simp only [test_loop]
    rw [ih, execute_smc_total]

theorem test_loop_crashes (o : Nat → Nat) :
    ∀ (l : List Nat) (s : FuzzStats) (ck : Nat),
      (test_loop o l s ck).stats.crashes = s.crashes := by
  intro l
  induction l with
  | nil => intro s ck; rfl
  | cons id rest ih =>
    intro s ck
    simp only [test_loop]
    rw [ih, execute_smc_crashes]

theorem test_loop_hangs (o : Nat → Nat) :
    ∀ (l : List Nat) (s : FuzzStats) (ck : Nat),
      (test_loop o l s ck).stats.hangs = s.hangs := by
  intro l
  induction l with
  | nil => intro s ck; rfl
  | cons id rest ih =>
    intro s ck
    simp only [test_loop]
    rw [ih, execute_smc_hangs]

theorem test_loop_outcome_sum (o : Nat → Nat) :
    ∀ (l : List Nat) (s : FuzzStats) (ck : Nat),
      (test_loop o l s ck).stats.valid_responses
        + (test_loop o l s ck).stats.error_responses
        + (test_loop o l s ck).stats.interesting_cases
        = s.valid_responses + s.error_responses + s.interesting_cases + l.length := by
  intro l
  induction l with
  | nil => intro s ck; rfl
  | cons id rest ih =>
    intro s ck
    simp only [test_loop, List.length_cons]
    have h1 := ih (execute_smc id [0, 0, 0, 0, 0, 0] (U64 (o ck)) s).stats (ck + 1)
    have h2 := execute_smc_outcome_sum id [0, 0, 0, 0, 0, 0] (U64 (o ck)) s
    omega

theorem test_loop_calls (o : Nat → Nat) :
    ∀ (l : List Nat) (s : FuzzStats) (ck : Nat),
      (test_loop o l s ck).calls = l.map (fun i => ⟨i, [0, 0, 0, 0, 0, 0]⟩) := by
  intro l
  induction l with
  | nil => intro s ck; rfl
  | cons id rest ih =>
    intro s ck
    simp only [test_loop, List.map_cons]
    rw [ih, execute_smc_call]

theorem card_filter_odd (n : Nat) :
    ((Finset.range n).filter (fun r => r % 2 = 1)).card = n / 2 := by
  induction n with
  | zero => simp
  | succ n ih =>
    rw [Finset.range_succ, Finset.filter_insert]
    by_cases h : n % 2 = 1
    · rw [if_pos h, Finset.card_insert_of_not_mem (by simp), ih]
      omega
    · rw [if_neg h, ih]
      omega

theorem lor_low24 (m : Nat) (hm : m < 2 ^ 24) :
    Nat.lor 0xb2000000 m = 0xb2000000 + m := by
  have h := Nat.mul_add_lt_is_or hm 0xb2
  norm_num at h
  exact h.symm

theorem generate_random_smc_id_corpus (g : Nat → Nat) (k : Nat)
    (h : U32 (g k) % 2 ≠ 0) :
    (generate_random_smc_id true g k).val ∈ known_smc_ids := by
  have hval : (generate_random_smc_id true g k).val
      = known_smc_ids.getD (U32 (g (k + 1)) % known_smc_ids.length) 0 := by
    simp [generate_random_smc_id, h]
  rw [hval]
  have h6 : U32 (g (k + 1)) % known_smc_ids.length < 6 :=
    Nat.mod_lt _ (by decide)
  set idx := U32 (g (k + 1)) % known_smc_ids.length with hidx
  interval_cases idx <;> decide

theorem generate_random_smc_id_synth (g : Nat → Nat) (k : Nat)
    (h : U32 (g k) % 2 = 0) :
    (generate_random_smc_id true g k).val
      = Nat.lor 0xb2000000 (Nat.land (U32 (g (k + 1))) 0x00ffffff) := by
  simp [generate_random_smc_id, h]

theorem generate_random_smc_id_range (g : Nat → Nat) (k : Nat) :
    0xb2000000 ≤ (generate_random_smc_id true g k).val ∧
      (generate_random_smc_id true g k).val ≤ 0xb2ffffff := by
  by_cases h : U32 (g k) % 2 = 0
  · rw [generate_random_smc_id_synth g k h]
    have hm : Nat.land (U32 (g (k + 1))) 0x00ffffff ≤ 0xffffff := Nat.and_le_right
    rw [lor_low24 _ (by omega)]
    omega
  · have hmem := generate_random_smc_id_corpus g k h
    have hb : ∀ x ∈ known_smc_ids, 0xb2000000 ≤ x ∧ x ≤ 0xb2ffffff := by decide
    exact hb _ hmem

theorem generate_random_smc_id_advance (g : Nat → Nat) (rk : Nat) :
    rk < (generate_random_smc_id true g rk).k := by
  simp only [generate_random_smc_id]
  split_ifs <;> dsimp only <;> omega

theorem generate_random_param_advance (g : Nat → Nat) (k : Nat) :
    k + 1 ≤ (generate_random_param g k).k := by
  simp only [generate_random_param]
  split_ifs <;> dsimp only <;> omega

theorem generate_random_param_spec (g : Nat → Nat) (k : Nat) :
    pattern_spec (U32 (g k) % 10) ((generate_random_param g k).val) := by
  have h10 : U32 (g k) % 10 < 10 := Nat.mod_lt _ (by norm_num)
  have hA : Nat.land (U32 (g (k + 1))) 0xFFF ≤ 0xFFF := Nat.and_le_right
  have hB : Nat.land (U64 (g (k + 1))) 0xFFFFFFFF ≤ 0xFFFFFFFF := Nat.and_le_right
  have hC : U32 (g (k + 1)) < 2 ^ 32 := Nat.mod_lt _ (by norm_num)
  have hD : U64 (g (k + 1)) < 2 ^ 64 := Nat.mod_lt _ (by norm_num)
  simp only [generate_random_param]
  by_cases h0 : U32 (g k) % 10 = 0
  · rw [h0]; simp [pattern_spec]
  by_cases h1 : U32 (g k) % 10 = 1
  · rw [h1]; simp [pattern_spec]
  by_cases h2 : U32 (g k) % 10 = 2
  · rw [h2]; simp [pattern_spec]
  by_cases h3 : U32 (g k) % 10 = 3
  · rw [h3]; simp [pattern_spec]
  by_cases h4 : U32 (g k) % 10 = 4
  · rw [h4]; simp [pattern_spec]; exact hC
  by_cases h5 : U32 (g k) % 10 = 5
  · rw [h5]; simp [pattern_spec]; exact hD
  by_cases h6 : U32 (g k) % 10 = 6
  · rw [h6]; simp [pattern_spec]
  by_cases h7 : U32 (g k) % 10 = 7
  · rw [h7]; simp [pattern_spec]; omega
  by_cases h8 : U32 (g k) % 10 = 8
  · rw [h8]; simp [pattern_spec]
  have h9 : U32 (g k) % 10 = 9 := by omega
  rw [h9]; simp [pattern_spec]; omega

set_option maxHeartbeats 1000000 in
theorem generate_random_param_local (g h : Nat → Nat) (k l : Nat)
    (h0 : g k = h l) (h1 : g (k + 1) = h (l + 1)) :
    (generate_random_param g k).val = (generate_random_param h l).val ∧
      (generate_random_param g k).k - k = (generate_random_param h l).k - l := by
  simp only [generate_random_param]
  rw [h0, h1]
  split_ifs <;> refine ⟨rfl, ?_⟩ <;> dsimp only <;> omega

theorem gen_params_length (g : Nat → Nat) :
    ∀ (n k : Nat), (gen_params g n k).params.length = n := by
  intro n
  induction n with
  | zero => intro k; rfl
  | succ n ih =>
    intro k
    simp only [gen_params, List.length_cons]
    rw [ih]

theorem param_chain_shift (g : Nat → Nat) :
    ∀ (i k : Nat),
      param_chain g ((generate_random_param g k).k) i = param_chain g k (i + 1) := by
  intro i
  induction i with
  | zero => intro k; rfl
  | succ i ih =>
    intro k
    have hunf : param_chain g ((generate_random_param g k).k) (i + 1)
        = (generate_random_param g (param_chain g ((generate_random_param g k).k) i)).k := rfl
    rw [hunf, ih]
    rfl

theorem gen_params_get (g : Nat → Nat) :
    ∀ (n i k : Nat), i < n →
      (gen_params g n k).params.getD i 0
        = (generate_random_param g (param_chain g k i)).val := by
  intro n
  induction n with
  | zero => intro i k h; omega
  | succ n ih =>
    intro i k h
    cases i with
    | zero => rfl
    | succ i =>
      have h1 := ih i ((generate_random_param g k).k) (by omega)
      rw [param_chain_shift] at h1
      simp only [gen_params, List.getD_cons_succ]
      exact h1

theorem param_chain_lt (g : Nat → Nat) (k : Nat) :
    ∀ i, param_chain g k i < param_chain g k (i + 1) := by
  intro i
  have := generate_random_param_advance g (param_chain g k i)
  simp only [param_chain]
  omega

theorem fuzz_iteration_args (g o : Nat → Nat) (s : FuzzStats) (rk ck : Nat) :
    (fuzz_iteration g o s rk ck).call.args
      = (gen_params g 6 ((generate_random_smc_id true g rk).k)).params := by
  simp only [fuzz_iteration, execute_smc_call]

/-- Projection of the record update performed by the test and reset
branches of proc_write. -/
theorem mstate_upd2_stats (st : MState) (X : FuzzStats) (Y : Nat) :
    ({ st with stats := X, ck := Y } : MState).stats = X := rfl

theorem mstate_upd2_ck (st : MState) (X : FuzzStats) (Y : Nat) :
    ({ st with stats := X, ck := Y } : MState).ck = Y := rfl

theorem mstate_upd2_enabled (st : MState) (X : FuzzStats) (Y : Nat) :
    ({ st with stats := X, ck := Y } : MState).enabled = st.enabled := rfl

theorem mstate_upd3_stats (st : MState) (X : FuzzStats) (Y Z : Nat) :
    ({ st with stats := X, rk := Y, ck := Z } : MState).stats = X := rfl

theorem step_fuzz_unfold (g o : Nat → Nat) (st : MState) (n : Nat) :
    step g o st (Op.fuzz n) = { st with
      stats := (run_fuzzing_campaign (fun _ => st.enabled) g o n st.stats st.rk st.ck).stats,
      rk := (run_fuzzing_campaign (fun _ => st.enabled) g o n st.stats st.rk st.ck).rk,
      ck := (run_fuzzing_campaign (fun _ => st.enabled) g o n st.stats st.rk st.ck).ck } := rfl

theorem step_test_unfold (g o : Nat → Nat) (st : MState) :
    step g o st Op.test = { st with
      stats := (test_known_smcs o st.stats st.ck).stats,
      ck := (test_known_smcs o st.stats st.ck).ck } := rfl

theorem tk_total (o : Nat → Nat) (s : FuzzStats) (ck : Nat) :
    (test_known_smcs o s ck).stats.total_iterations = s.total_iterations :=
  test_loop_total o known_smc_ids s ck

theorem tk_crashes (o : Nat → Nat) (s : FuzzStats) (ck : Nat) :
    (test_known_smcs o s ck).stats.crashes = s.crashes :=
  test_loop_crashes o known_smc_ids s ck

theorem tk_hangs (o : Nat → Nat) (s : FuzzStats) (ck : Nat) :
    (test_known_smcs o s ck).stats.hangs = s.hangs :=
  test_loop_hangs o known_smc_ids s ck

theorem tk_outcome_sum (o : Nat → Nat) (s : FuzzStats) (ck : Nat) :
    (test_known_smcs o s ck).stats.valid_responses
      + (test_known_smcs o s ck).stats.error_responses
      + (test_known_smcs o s ck).stats.interesting_cases
      = s.valid_responses + s.error_responses + s.interesting_cases + 6 := by
  rw [test_known_smcs]
  have h := test_loop_outcome_sum o known_smc_ids s ck
  have hlen : known_smc_ids.length = 6 := rfl
  omega

theorem tk_calls (o : Nat → Nat) (s : FuzzStats) (ck : Nat) :
    (test_known_smcs o s ck).calls
      = known_smc_ids.map (fun i => ⟨i, [0, 0, 0, 0, 0, 0]⟩) := by
  rw [test_known_smcs]
  exact test_loop_calls o known_smc_ids s ck

theorem step_stats_inv (g o : Nat → Nat) (st : MState) (op : Op) (hop : op ≠ Op.test)
    (h : stats_inv st.stats) : stats_inv (step g o st op).stats := by
  cases op with
  | fuzz n =>
    have h1 := run_loop_total (fun _ => st.enabled) g o n 0 st.stats st.rk st.ck
    have h2 := run_loop_outcome_sum (fun _ => st.enabled) g o n 0 st.stats st.rk st.ck
    simp only [stats_inv] at h ⊢
    rw [step_fuzz_unfold, mstate_upd3_stats, run_fuzzing_campaign]
    omega
  | test => exact absurd rfl hop
  | enable => exact h
  | disable => exact h
  | reset => rfl

theorem exec_ops_stats_inv (g o : Nat → Nat) :
    ∀ (ops : List Op) (st : MState), Op.test ∉ ops → stats_inv st.stats →
      stats_inv (exec_ops g o ops st).stats := by
  intro ops
  induction ops with
  | nil => intro st _ h; exact h
  | cons op ops ih =>
    intro st hmem h
    simp only [exec_ops]
    refine ih _ (fun hc => hmem (List.mem_cons_of_mem _ hc)) ?_
    exact step_stats_inv g o st op
      (fun he => hmem (by rw [← he]; exact List.mem_cons_self op ops)) h

theorem step_test_total (g o : Nat → Nat) (st : MState) :
    (step g o st Op.test).stats.total_iterations = st.stats.total_iterations := by
  rw [step_test_unfold, mstate_upd2_stats, tk_total]

theorem step_test_outcome_sum (g o : Nat → Nat) (st : MState) :
    (step g o st Op.test).stats.valid_responses
      + (step g o st Op.test).stats.error_responses
      + (step g o st Op.test).stats.interesting_cases
      = st.stats.valid_responses + st.stats.error_responses
        + st.stats.interesting_cases + 6 := by
  rw [step_test_unfold, mstate_upd2_stats]
  exact tk_outcome_sum o st.stats st.ck

theorem step_ch_zero (g o : Nat → Nat) (st : MState) (op : Op)
    (h : st.stats.crashes = 0 ∧ st.stats.hangs = 0) :
    (step g o st op).stats.crashes = 0 ∧ (step g o st op).stats.hangs = 0 := by
  cases op with
  | fuzz n =>
    have h1 := run_loop_crashes (fun _ => st.enabled) g o n 0 st.stats st.rk st.ck
    have h2 := run_loop_hangs (fun _ => st.enabled) g o n 0 st.stats st.rk st.ck
    rw [step_fuzz_unfold, mstate_upd3_stats, run_fuzzing_campaign]
    omega
  | test =>
    have h1 := tk_crashes o st.stats st.ck
    have h2 := tk_hangs o st.stats st.ck
    rw [step_test_unfold, mstate_upd2_stats]
    omega
  | enable => exact h
  | disable => exact h
  | reset => exact ⟨rfl, rfl⟩

theorem exec_ops_ch_zero (g o : Nat → Nat) :
    ∀ (ops : List Op) (st : MState),
      st.stats.crashes = 0 ∧ st.stats.hangs = 0 →
      (exec_ops g o ops st).stats.crashes = 0 ∧ (exec_ops g o ops st).stats.hangs = 0 := by
  intro ops
  induction ops with
  | nil => intro st h; exact h
  | cons op ops ih =>
    intro st h
    simp only [exec_ops]
    exact ih _ (step_ch_zero g o st op h)

theorem corpus_branch_half :
    ((Finset.range (2 ^ 32)).filter
      (fun r => (generate_random_smc_id true (fun j => if j = 0 then r else 0) 0).val
        ∈ known_smc_ids)).card = 2 ^ 31 := by
  have key : ∀ r ∈ Finset.range (2 ^ 32),
      ((generate_random_smc_id true (fun j => if j = 0 then r else 0) 0).val ∈ known_smc_ids
        ↔ r % 2 = 1) := by
    intro r hr
    have hr32 : r < 2 ^ 32 := Finset.mem_range.mp hr
    have hU : U32 ((fun j => if j = 0 then r else 0) 0) = r := by
      show U32 r = r
      simp only [U32]
      omega
    by_cases hpar : r % 2 = 1
    · constructor
      · intro _; exact hpar
      · intro _
        apply generate_random_smc_id_corpus
        rw [hU]
        omega
    · have hpar0 : r % 2 = 0 := by omega
      have hsyn := generate_random_smc_id_synth (fun j => if j = 0 then r else 0) 0
        (by rw [hU]; exact hpar0)
      rw [hsyn]
      have hz : ((fun j => if j = 0 then r else 0) (0 + 1)) = 0 := rfl
      rw [hz]
      have hval : Nat.lor 0xb2000000 (Nat.land (U32 0) 0x00ffffff) = 0xb2000000 := rfl
      rw [hval]
      constructor
      · intro hmem
        exact absurd hmem (by decide)
      · intro hcon
        exact absurd hcon hpar
  rw [Finset.filter_congr key, card_filter_odd]
  norm_num

theorem view_crashes (st : MState) : (proc_read_view st).crashes = st.stats.crashes := rfl

theorem view_hangs (st : MState) : (proc_read_view st).hangs = st.stats.hangs := rfl

theorem initout_state (r : Int) (stv : MState) (cs : List SmcCall) :
    (⟨r, stv, cs⟩ : InitOut).state = stv := rfl

theorem initout_calls (r : Int) (stv : MState) (cs : List SmcCall) :
    (⟨r, stv, cs⟩ : InitOut).calls = cs := rfl

theorem init_ok_unfold (o : Nat → Nat) :
    smc_fuzzer_init o true =
      ⟨0,
       { mstate0 with
          stats := (test_known_smcs o mstate0.stats mstate0.ck).stats,
          ck := (test_known_smcs o mstate0.stats mstate0.ck).ck },
       (test_known_smcs o mstate0.stats mstate0.ck).calls⟩ := rfl

/-- Claim C1, counterexample: the claimed invariant
total_iterations == valid + error + interesting does not survive a
test_known() invocation.  A single test command from the pristine state
(with a secure world that always answers 0) classifies six calls into
valid_responses without touching total_iterations. -/
theorem claim_C1_counterexample :
    ¬ stats_inv (exec_ops (fun _ => 0) (fun _ => 0) [Op.test] mstate0).stats := by
  simp only [stats_inv]
  decide

/-- Claim C1 (amended): after any sequence of run(N) campaigns and
reset_stats() calls, with no test_known() invocation, the statistics
satisfy total_iterations == valid + error + interesting (crashes and
hangs are not included); each test_known() invocation instead adds the
corpus size (6) to the outcome counters while leaving total_iterations
unchanged, breaking the equation. -/
theorem claim_C1_amended :
    (∀ (g o : Nat → Nat) (ops : List Op) (st : MState),
      Op.test ∉ ops → stats_inv st.stats → stats_inv (exec_ops g o ops st).stats) ∧
    (∀ (g o : Nat → Nat) (st : MState),
      (step g o st Op.test).stats.total_iterations = st.stats.total_iterations ∧
      (step g o st Op.test).stats.valid_responses
        + (step g o st Op.test).stats.error_responses
        + (step g o st Op.test).stats.interesting_cases
        = st.stats.valid_responses + st.stats.error_responses
          + st.stats.interesting_cases + 6) :=
  ⟨fun g o ops st h1 h2 => exec_ops_stats_inv g o ops st h1 h2,
   fun g o st => ⟨step_test_total g o st, step_test_outcome_sum g o st⟩⟩

/-- Witness for the amended claim C1 at a concrete trace. -/
theorem claim_C1_witness :
    stats_inv (exec_ops (fun _ => 1) (fun _ => 0)
      [Op.fuzz 2, Op.reset, Op.fuzz 3] mstate0).stats :=
  claim_C1_amended.1 (fun _ => 1) (fun _ => 0)
    [Op.fuzz 2, Op.reset, Op.fuzz 3] mstate0 (by decide) rfl

/-- Claim C2: the classifier assigns exactly one outcome per call —
primary word 0 is Valid, negative as signed (via toSigned64) is
ErrorReturn, anything else is Interesting — increments exactly the
matching counter (the three outcome counters together grow by exactly
one), and updates last_smc_id / last_result unconditionally on every
call. -/
theorem claim_C2_classifier :
    ∀ (s : FuzzStats) (fid : Nat) (args : List Nat) (a0 : Nat), a0 < 2 ^ 64 →
      ((execute_smc fid args a0 s).stats.last_smc_id = fid ∧
       (execute_smc fid args a0 s).stats.last_result = a0) ∧
      (a0 = 0 → execute_smc fid args a0 s =
        ⟨{ s with last_smc_id := fid, last_result := a0, valid_responses := s.valid_responses + 1 }, 0, ⟨fid, args⟩⟩) ∧
      (toSigned64 a0 < 0 → execute_smc fid args a0 s =
        ⟨{ s with last_smc_id := fid, last_result := a0, error_responses := s.error_responses + 1 }, -1, ⟨fid, args⟩⟩) ∧
      (a0 ≠ 0 → ¬ toSigned64 a0 < 0 → execute_smc fid args a0 s =
        ⟨{ s with last_smc_id := fid, last_result := a0, interesting_cases := s.interesting_cases + 1 }, 0, ⟨fid, args⟩⟩) ∧
      ((execute_smc fid args a0 s).stats.valid_responses
        + (execute_smc fid args a0 s).stats.error_responses
        + (execute_smc fid args a0 s).stats.interesting_cases
        = s.valid_responses + s.error_responses + s.interesting_cases + 1) := by
  intro s fid args a0 _
  refine ⟨?_, ?_, ?_, ?_, execute_smc_outcome_sum fid args a0 s⟩
  · simp only [execute_smc]
    split_ifs <;> exact ⟨rfl, rfl⟩
  · intro h
    simp [execute_smc, h]
  · intro h
    have ha : a0 ≠ 0 := by
      intro h0
      rw [h0] at h
      norm_num [toSigned64] at h
    simp [execute_smc, ha, h]
  · intro h1 h2
    simp [execute_smc, h1, h2]

/-- Witness for claim C2 at the error-return boundary value 2^63. -/
theorem claim_C2_witness :
    execute_smc 7 [1, 2, 3, 4, 5, 6] (2 ^ 63) zeroStats =
      ⟨{ zeroStats with last_smc_id := 7, last_result := 2 ^ 63, error_responses := zeroStats.error_responses + 1 }, -1,
       ⟨7, [1, 2, 3, 4, 5, 6]⟩⟩ :=
  (claim_C2_classifier zeroStats 7 [1, 2, 3, 4, 5, 6] (2 ^ 63)
    (by norm_num)).2.2.1 (by norm_num [toSigned64])

/-- Claim C3: run(N) with the enabled flag true at every per-iteration
check increments total_iterations by exactly N; in general the
increment never exceeds N; and with the flag schedule that turns false
at check 37, run(1000) stops with total_iterations = 37, counting the
37 iterations already classified. -/
theorem claim_C3_run_count :
    (∀ (en : Nat → Bool) (g o : Nat → Nat) (N : Nat) (s : FuzzStats) (rk ck : Nat),
      (∀ i, i < N → en i = true) →
      (run_fuzzing_campaign en g o N s rk ck).stats.total_iterations
        = s.total_iterations + N) ∧
    (∀ (en : Nat → Bool) (g o : Nat → Nat) (N : Nat) (s : FuzzStats) (rk ck : Nat),
      (run_fuzzing_campaign en g o N s rk ck).stats.total_iterations
        ≤ s.total_iterations + N) ∧
    (∀ (g o : Nat → Nat),
      (run_fuzzing_campaign (fun i => decide (i < 37)) g o 1000
        zeroStats 0 0).stats.total_iterations = 37) := by
  refine ⟨?_, ?_, ?_⟩
  · intro en g o N s rk ck hen
    have h1 := run_loop_total en g o N 0 s rk ck
    have h2 := run_loop_always en g o N 0 s rk ck
      (by intro j hj; simpa using hen j hj)
    rw [run_fuzzing_campaign]
    omega
  · intro en g o N s rk ck
    have h1 := run_loop_total en g o N 0 s rk ck
    have h2 := run_loop_fin_le en g o N 0 s rk ck
    rw [run_fuzzing_campaign]
    omega
  · intro g o
    have h1 := run_loop_total (fun i => decide (i < 37)) g o 1000 0 zeroStats 0 0
    have h2 := run_loop_stop (fun i => decide (i < 37)) g o 37 1000 0 zeroStats 0 0
      (by intro j hj; simp; omega)
      (by simp)
      (by omega)
    have h3 : zeroStats.total_iterations = 0 := rfl
    rw [run_fuzzing_campaign]
    omega

/-- Witness for claim C3 on a concrete 5-iteration campaign. -/
theorem claim_C3_witness :
    (run_fuzzing_campaign (fun _ => true) (fun _ => 1) (fun _ => 0) 5
      zeroStats 0 0).stats.total_iterations = zeroStats.total_iterations + 5 :=
  claim_C3_run_count.1 (fun _ => true) (fun _ => 1) (fun _ => 0) 5
    zeroStats 0 0 (fun _ _ => rfl)

/-- Claim C4, counterexample: in run(250) the cond_resched point is
reached three times — at loop indices 0, 100 and 200 — not exactly
twice at 100 and 200 as claimed, because i % 100 == 0 already holds at
the first iteration. -/
theorem claim_C4_counterexample :
    (run_fuzzing_campaign (fun _ => true) (fun _ => 1) (fun _ => 0) 250
      zeroStats 0 0).yields = [0, 100, 200] ∧
    ((run_fuzzing_campaign (fun _ => true) (fun _ => 1) (fun _ => 0) 250
      zeroStats 0 0).yields.length ≠ 2) := by
  have h1 := run_loop_always (fun _ => true) (fun _ => 1) (fun _ => 0) 250 0
    zeroStats 0 0 (fun j _ => rfl)
  have h2 := run_loop_yields (fun _ => true) (fun _ => 1) (fun _ => 0) 250 0
    zeroStats 0 0
  rw [run_fuzzing_campaign, h2, h1]
  exact ⟨by decide, by decide⟩

/-- Claim C4 (amended): the yield point is reached exactly at the
executed loop indices that are multiples of 100 — including index 0 —
regardless of the outcome mix; for run(250) that is three times, at
indices 0, 100 and 200 (after iterations 1, 101 and 201). -/
theorem claim_C4_yields :
    (∀ (en : Nat → Bool) (g o : Nat → Nat) (N : Nat) (s : FuzzStats) (rk ck : Nat),
      (run_fuzzing_campaign en g o N s rk ck).yields
        = (List.range (run_fuzzing_campaign en g o N s rk ck).fin).filter
            (fun j => decide (j % 100 = 0))) ∧
    ((run_fuzzing_campaign (fun _ => true) (fun _ => 1) (fun _ => 0) 250
        zeroStats 0 0).yields = [0, 100, 200]) := by
  constructor
  · intro en g o N s rk ck
    have h := run_loop_yields en g o N 0 s rk ck
    rw [run_fuzzing_campaign, h, List.range_eq_range', Nat.sub_zero]
  · have h1 := run_loop_always (fun _ => true) (fun _ => 1) (fun _ => 0) 250 0
      zeroStats 0 0 (fun j _ => rfl)
    have h2 := run_loop_yields (fun _ => true) (fun _ => 1) (fun _ => 0) 250 0
      zeroStats 0 0
    rw [run_fuzzing_campaign, h2, h1]
    decide

/-- Claim C5: test_known() invokes each Seed Corpus identifier exactly
once, in corpus order, each with all six arguments zero, independently
of the oracle and of any prior state (no randomness is consumed), and a
successful module load runs exactly this trace once. -/
theorem claim_C5_test_known :
    (∀ (o : Nat → Nat) (s : FuzzStats) (ck : Nat),
      (test_known_smcs o s ck).calls
        = known_smc_ids.map (fun i => ⟨i, [0, 0, 0, 0, 0, 0]⟩)) ∧
    (∀ (o : Nat → Nat),
      (smc_fuzzer_init o true).calls
        = known_smc_ids.map (fun i => ⟨i, [0, 0, 0, 0, 0, 0]⟩)) ∧
    (∀ (o : Nat → Nat), (smc_fuzzer_init o false).calls = []) := by
  refine ⟨tk_calls, ?_, fun o => rfl⟩
  intro o
  rw [init_ok_unfold, initout_calls]
  exact tk_calls o mstate0.stats mstate0.ck

/-- Claim C6: with use_known set, an odd first draw returns a corpus
entry and an even first draw returns the masked-and-prefixed synthetic
identifier; every returned identifier lies in the OP-TEE range
0xb2000000..0xb2ffffff; and exactly half of the 2^32 possible first
draws (2^31 of them) take the corpus branch, the probability-1/2
statement over a uniform u32. -/
theorem claim_C6_id_gen :
    (∀ (g : Nat → Nat) (k : Nat), U32 (g k) % 2 ≠ 0 →
      (generate_random_smc_id true g k).val ∈ known_smc_ids) ∧
    (∀ (g : Nat → Nat) (k : Nat), U32 (g k) % 2 = 0 →
      (generate_random_smc_id true g k).val
        = Nat.lor 0xb2000000 (Nat.land (U32 (g (k + 1))) 0x00ffffff)) ∧
    (∀ (g : Nat → Nat) (k : Nat),
      0xb2000000 ≤ (generate_random_smc_id true g k).val ∧
      (generate_random_smc_id true g k).val ≤ 0xb2ffffff) ∧
    (((Finset.range (2 ^ 32)).filter
      (fun r => (generate_random_smc_id true (fun j => if j = 0 then r else 0) 0).val
        ∈ known_smc_ids)).card = 2 ^ 31) :=
  ⟨generate_random_smc_id_corpus, generate_random_smc_id_synth,
   generate_random_smc_id_range, corpus_branch_half⟩

/-- Witness for claim C6 on the two branches at concrete draws. -/
theorem claim_C6_witness :
    (generate_random_smc_id true (fun _ => 1) 0).val ∈ known_smc_ids ∧
    (generate_random_smc_id true (fun _ => 2) 0).val
      = Nat.lor 0xb2000000 (Nat.land (U32 2) 0x00ffffff) :=
  ⟨claim_C6_id_gen.1 (fun _ => 1) 0 (by decide),
   claim_C6_id_gen.2.1 (fun _ => 2) 0 (by decide)⟩

/-- Claim C7: every fuzzing iteration builds exactly six argument
words, produced by six successive independent draws from the ten-way
pattern set (each draw has the shape pattern_spec prescribes for its
selector), each slot depending only on its own one or two stream cells
(locality), the slots consuming strictly increasing disjoint stream
segments (param_chain), and the argument segment starting only after
the identifier has consumed its own draws — no correlation between
slots or with the identifier. -/
theorem claim_C7_param_gen :
    (∀ (g o : Nat → Nat) (s : FuzzStats) (rk ck : Nat),
      (fuzz_iteration g o s rk ck).call.args.length = 6) ∧
    (∀ (g o : Nat → Nat) (s : FuzzStats) (rk ck : Nat),
      (fuzz_iteration g o s rk ck).call.args
        = (gen_params g 6 ((generate_random_smc_id true g rk).k)).params) ∧
    (∀ (g : Nat → Nat) (k : Nat),
      pattern_spec (U32 (g k) % 10) ((generate_random_param g k).val)) ∧
    (∀ (g h : Nat → Nat) (k l : Nat), g k = h l → g (k + 1) = h (l + 1) →
      (generate_random_param g k).val = (generate_random_param h l).val ∧
      (generate_random_param g k).k - k = (generate_random_param h l).k - l) ∧
    (∀ (g : Nat → Nat) (k i : Nat), i < 6 →
      (gen_params g 6 k).params.getD i 0
        = (generate_random_param g (param_chain g k i)).val) ∧
    (∀ (g : Nat → Nat) (k i : Nat), param_chain g k i < param_chain g k (i + 1)) ∧
    (∀ (g : Nat → Nat) (rk : Nat), rk < (generate_random_smc_id true g rk).k) :=
  ⟨fun g o s rk ck => by
      rw [fuzz_iteration_args]
      exact gen_params_length g 6 ((generate_random_smc_id true g rk).k),
   fun g o s rk ck => fuzz_iteration_args g o s rk ck,
   fun g k => generate_random_param_spec g k,
   fun g h k l h0 h1 => generate_random_param_local g h k l h0 h1,
   fun g k i hi => gen_params_get g 6 i k hi,
   fun g k i => param_chain_lt g k i,
   fun g rk => generate_random_smc_id_advance g rk⟩

/-- Witness for claim C7: locality and slot decomposition at concrete
streams and indices. -/
theorem claim_C7_witness :
    ((generate_random_param (fun _ => 7) 0).val
      = (generate_random_param (fun _ => 7) 5).val) ∧
    ((gen_params (fun _ => 3) 6 0).params.getD 2 0
      = (generate_random_param (fun _ => 3) (param_chain (fun _ => 3) 0 2)).val) :=
  ⟨(claim_C7_param_gen.2.2.2.1 (fun _ => 7) (fun _ => 7) 0 5 rfl rfl).1,
   claim_C7_param_gen.2.2.2.2.1 (fun _ => 3) 0 2 (by decide)⟩

/-- Claim C8: the reset command zeroes every counter and clears the
last-identifier/result fields; the post-reset state is the full
pre-reset state with only the statistics replaced by the zero record
(one atomic transition of the single-actor machine, so a reader sees
either the complete old or the complete new snapshot), and a
subsequent status read renders all-zero counters. -/
theorem claim_C8_reset :
    ∀ (st : MState) (g o : Nat → Nat),
      (proc_write ("reset".data) g o st).1 = { st with stats := zeroStats } ∧
      (proc_write ("reset".data) g o st).2 = 5 ∧
      proc_read_view (proc_write ("reset".data) g o st).1
        = ⟨st.enabled, 0, 0, 0, 0, 0, 0, 0, 0⟩ := by
  intro st g o
  exact ⟨rfl, rfl, rfl⟩

/-- Claim C9, counterexample: the string testx is not one of the
defined verbs, yet proc_write accepts it (strncmp prefix match), runs
the known-SMC test and mutates the statistics, instead of rejecting it
with an input error. -/
theorem claim_C9_counterexample :
    spec_defined_verb ("testx".data) = false ∧
    (proc_write ("testx".data) (fun _ => 0) (fun _ => 0) mstate0).2 = 5 ∧
    (proc_write ("testx".data) (fun _ => 0) (fun _ => 0)
      mstate0).1.stats.valid_responses = 6 :=
  ⟨by decide, by decide, by decide⟩

/-- Claim C9 (amended): every command that matches none of the parser
branches — sscanf fuzz with a number, or a prefix of test, enable,
disable, reset (the accepted set is prefix-based, so some non-verb
strings are accepted) — is rejected with -EINVAL (-22) and the state is
completely unchanged: no statistics change, no flag change, no campaign
or test started. -/
theorem claim_C9_reject :
    ∀ (cmd : List Char) (g o : Nat → Nat) (st : MState),
      scanf_fuzz (effective_cmd cmd) = none →
      ("test".data).isPrefixOf (effective_cmd cmd) = false →
      ("enable".data).isPrefixOf (effective_cmd cmd) = false →
      ("disable".data).isPrefixOf (effective_cmd cmd) = false →
      ("reset".data).isPrefixOf (effective_cmd cmd) = false →
      proc_write cmd g o st = (st, -22) := by
  intro cmd g o st h1 h2 h3 h4 h5
  by_cases hlen : 128 ≤ cmd.length
  · simp [proc_write, hlen]
  · simp [proc_write, hlen, h1, h2, h3, h4, h5]

/-- Witness for the amended claim C9 on two concrete rejected
commands: an unknown verb, and fuzz with a signed argument, which the
kernel %u conversion does not accept. -/
theorem claim_C9_witness :
    proc_write ("status".data) (fun _ => 3) (fun _ => 4) mstate0 = (mstate0, -22) ∧
    proc_write ("fuzz -1".data) (fun _ => 3) (fun _ => 4) mstate0 = (mstate0, -22) :=
  ⟨claim_C9_reject ("status".data) (fun _ => 3) (fun _ => 4) mstate0
    (by decide) (by decide) (by decide) (by decide) (by decide),
   claim_C9_reject ("fuzz -1".data) (fun _ => 3) (fun _ => 4) mstate0
    (by decide) (by decide) (by decide) (by decide) (by decide)⟩

/-- Claim C10: no core operation ever increments the crashes or hangs
counters — along every operation sequence from a successful module
load, both remain zero (reset only rewrites them to zero) — even
though both fields are rendered in the status view. -/
theorem claim_C10_frame :
    ∀ (g o : Nat → Nat) (ops : List Op),
      (exec_ops g o ops (loaded_state o)).stats.crashes = 0 ∧
      (exec_ops g o ops (loaded_state o)).stats.hangs = 0 ∧
      (proc_read_view (exec_ops g o ops (loaded_state o))).crashes = 0 ∧
      (proc_read_view (exec_ops g o ops (loaded_state o))).hangs = 0 := by
  intro g o ops
  have hch : (loaded_state o).stats.crashes = 0 ∧ (loaded_state o).stats.hangs = 0 := by
    constructor
    · rw [loaded_state, init_ok_unfold, initout_state, mstate_upd2_stats, tk_crashes]
      rfl
    · rw [loaded_state, init_ok_unfold, initout_state, mstate_upd2_stats, tk_hangs]
      rfl
  have h := exec_ops_ch_zero g o ops (loaded_state o) hch
  rw [view_crashes, view_hangs]
  exact ⟨h.1, h.2, h.1, h.2⟩
